import Mathlib

/-!
# Verification of the append-only bounded FS logger

Shallow embedding of `src/append-fs-logger.js` (class `AppendOnlyFSLogger`,
first revision in the file, which is the one with the `try/catch` in
`_write` and the fd-null check in `_flush`), of the `MainLogger._log`
guard, and of the `open()` recovery scan.

Modelling decisions:
* File contents and log-line strings are sequences of code units
  (`List Nat`); the newline byte `'\n'` is `10`.  This abstracts UTF-8
  encoding, which no claim depends on.
* Asynchronous I/O outcomes (mkdir, readFile, open, write, pipeline,
  rename, close) are injected as environment values, so every path of the
  JS control flow is a total Lean function; a JS promise rejection /
  thrown exception is an `Except`/`Option` error value.
* JS `JSON.stringify` is an abstract serializer parameter
  `ser : LogLineRec α → Except Unit (List Nat)`; `.error` models a
  synchronous throw (e.g. a circular `fields` graph).
* A JS file descriptor is `Option Nat`; JS truthiness of `this.fd` is
  `isSome` (descriptors returned by `fs.open` are never `0`).
-/

namespace AppendFsLogger

/-- `32 * 1024 * 1024`, from the source. -/
def MAX_LOG_FILE_SIZE : Nat := 32 * 1024 * 1024

/-- `32 * 1024`, from the source. -/
def MAX_LOG_LINE_SIZE : Nat := 32 * 1024

/-- `4096`, from the source. -/
def MAX_LOG_LINES : Nat := 4096

/-- The newline code unit `'\n'.charCodeAt(0)`. -/
def newLineByte : Nat := 10

/-- Error codes of `NodeJS.ErrnoException` that the source inspects. -/
inductive ErrCode where
  | EACCES
  | ENOENT
  | EOTHER
deriving DecidableEq, Repr

/-- `OpenFailError`: wraps an open-phase cause; the constructor sets
`shouldBail = false` and copies the cause's `code`. -/
structure OpenFailError where
  message : String
  code : ErrCode
  shouldBail : Bool
deriving DecidableEq, Repr

/-- The errors the logger produces (returned from `open()` or handed to
the `onError` callback); each constructor corresponds to one `wrapf` /
`new Error` site in the source. -/
inductive LogError where
  /-- `new Error('Cannot open twice()')` -/
  | doubleOpen
  /-- an `OpenFailError` from `open()` -/
  | openFail (e : OpenFailError)
  /-- `new Error('_flush() could not write, fd is null')` -/
  | fdNull
  /-- `wrapf('_write() could not write(fd)', ...)` -/
  | writeFail (code : ErrCode)
  /-- `wrapf('_truncate(): could not pipeline', ...)` -/
  | truncPipeFail (code : ErrCode)
  /-- `wrapf('_truncate(): could not rename', ...)` -/
  | truncRenameFail (code : ErrCode)
  /-- `wrapf('_truncate(): could not close', ...)` (degenerate branch) -/
  | truncCloseFail (code : ErrCode)
  /-- `wrapf('_truncate(): could not re open', ...)` -/
  | truncReopenFail (code : ErrCode)
  /-- `wrapf('_truncate(): could not close old fd', ...)` -/
  | truncCloseOldFail (code : ErrCode)
  /-- `wrapf('_write() threw an unexpected exception', ...)` -/
  | unexpectedWriteException
deriving DecidableEq, Repr

/-- The mutable fields of `AppendOnlyFSLogger`, plus `file`, the byte
content of the log file on disk (the part of the file system the logger
owns). -/
structure LoggerState where
  productName : String
  fd : Option Nat
  /-- Number of lines in the file (`this.lines`). -/
  lines : Nat
  /-- Current size of the file after writing (`this.size`). -/
  size : Nat
  /-- Total cumulative bytes written (`this.bytesWritten`). -/
  bytesWritten : Nat
  /-- Internal `fs.write()` counter for testing (`this._writeCalled`). -/
  writeCalled : Nat
  /-- Byte offsets of the newlines in the file (`this.newLineOffsets`). -/
  newLineOffsets : List Nat
  /-- Pending loglines to be written (`this.pendingWrites`). -/
  pendingWrites : List (List Nat)
  hasOpened : Bool
  /-- On-disk content of `logFileLocation`. -/
  file : List Nat
deriving DecidableEq, Repr

/-- The constructor of `AppendOnlyFSLogger`: all counters zero, no fd,
not opened; `file` is whatever is on disk at the path (possibly empty). -/
def initLogger (productName : String) (file : List Nat) : LoggerState :=
  { productName := productName
    fd := none
    lines := 0
    size := 0
    bytesWritten := 0
    writeCalled := 0
    newLineOffsets := []
    pendingWrites := []
    hasOpened := false
    file := file }

/-! ## Newline positions and line decomposition -/

/-- The `open()` recovery scan: `for (i = 0; i < buf.length; i++) if
(buf[i] === newLineByte) this.newLineOffsets.push(i)` — the increasing
list of indices holding the newline byte. -/
def nlScan (buf : List Nat) : List Nat :=
  (List.range buf.length).filter fun i => buf.getD i 0 == newLineByte

/-- Recursive characterization of the newline positions of a byte list
(proved equal to `nlScan`); the form used in proofs. -/
def nlPos : List Nat → List Nat
  | [] => []
  | b :: rest =>
    (if b = newLineByte then [0] else []) ++ (nlPos rest).map (· + 1)

/-- The complete (newline-terminated) lines of a byte list, each without
its terminating newline; trailing bytes after the last newline are not a
line. -/
def fileLines : List Nat → List (List Nat)
  | [] => []
  | b :: rest =>
    if b = newLineByte then [] :: fileLines rest
    else
      match fileLines rest with
      | [] => []
      | l :: ls => (b :: l) :: ls

/-- `pendingWrites.join('\n')`: the lines interleaved with single newline
bytes. -/
def interNl : List (List Nat) → List Nat
  | [] => []
  | [l] => l
  | l :: l' :: ls => l ++ newLineByte :: interNl (l' :: ls)

/-- `Buffer.from(pendingWrites.join('\n') + '\n')`: the buffer a flush
round writes. -/
def joinNl (ls : List (List Nat)) : List Nat := interNl ls ++ [newLineByte]

/-! ## The environment: injected I/O outcomes -/

/-- Outcome of `readFile(this.logFileLocation)`: success returns the
file's bytes (`LoggerState.file`); `err ENOENT` is the absent-file case. -/
inductive ReadOutcome where
  | ok
  | err (code : ErrCode)
deriving DecidableEq, Repr

/-- Outcome of `fs.open(path, 'a+')`. -/
inductive FdResult where
  | ok (fd : Nat)
  | err (code : ErrCode)
deriving DecidableEq, Repr

/-- Outcome of `fs.write(fd, buf, 0, buf.length, 0)`: on success, the
number of bytes actually transferred. -/
inductive WriteResult where
  | ok (bytesWritten : Nat)
  | err (code : ErrCode)
deriving DecidableEq, Repr

/-- The I/O outcomes `open()` can encounter, in source order. -/
structure OpenEnv where
  mkdirErr : Option ErrCode
  read : ReadOutcome
  openRes : FdResult
deriving DecidableEq, Repr

/-- The I/O outcomes `_truncate()` can encounter, in source order:
pipeline, rename, close (degenerate branch), the `open()` re-run's
environment (degenerate branch), the `fs.open` re-open and the close of
the old fd (normal branch). -/
structure TruncEnv where
  pipeErr : Option ErrCode
  renameErr : Option ErrCode
  closeErr : Option ErrCode
  openEnv : OpenEnv
  reopenRes : FdResult
  closeOldErr : Option ErrCode
deriving DecidableEq, Repr

/-! ## `open()` -/

/-- The `fs.open(..., 'a+')` step of `open()`: wraps a failure in an
`OpenFailError`, setting `shouldBail` exactly when the code is `EACCES`;
on success latches `hasOpened` and stores the descriptor. -/
def openFdStep (s : LoggerState) (env : OpenEnv) : LoggerState × Option LogError :=
  match env.openRes with
  | .err c =>
    let e : OpenFailError :=
      { message := "Could not open log file", code := c, shouldBail := false }
    let e := if c = ErrCode.EACCES then { e with shouldBail := true } else e
    (s, some (.openFail e))
  | .ok fd => ({ s with hasOpened := true, fd := some fd }, none)

/-- `open()`: double-open guard, mkdir, read + recovery scan, fd open. -/
def openLogger (s : LoggerState) (env : OpenEnv) : LoggerState × Option LogError :=
  if s.fd.isSome then (s, some .doubleOpen)
  else
    match env.mkdirErr with
    | some c =>
      (s, some (.openFail
        { message := "Could not mkdir for log file", code := c, shouldBail := false }))
    | none =>
      match env.read with
      | .err c =>
        if c ≠ ErrCode.ENOENT then
          (s, some (.openFail
            { message := "Could not read old file", code := c, shouldBail := false }))
        else
          openFdStep s env
      | .ok =>
        let buf := s.file
        let s :=
          { s with
            size := buf.length
            newLineOffsets := nlScan buf
            lines := (nlScan buf).length }
        openFdStep s env

/-! ## `_truncate()` -/

/-- `_truncate(position, lineIndex)`.  `lineIndex = none` models the JS
`-1`.  The on-disk file is replaced by its tail from `position` once the
rename has succeeded. -/
def truncateStep (s : LoggerState) (position : Nat) (lineIndex : Option Nat)
    (tenv : TruncEnv) : LoggerState × Option LogError :=
  match tenv.pipeErr with
  | some c => (s, some (.truncPipeFail c))
  | none =>
    match tenv.renameErr with
    | some c => (s, some (.truncRenameFail c))
    | none =>
      let s := { s with file := s.file.drop position }
      match lineIndex with
      | none =>
        let s := { s with lines := 0, size := 0, newLineOffsets := [] }
        match tenv.closeErr with
        | some c => ({ s with fd := none }, some (.truncCloseFail c))
        | none =>
          -- `return this.open()`; note the fd was NOT cleared on the
          -- successful close, so the double-open guard fires.
          openLogger s tenv.openEnv
      | some k =>
        let s :=
          { s with
            lines := s.lines - k - 1
            size := s.size - position
            newLineOffsets := (s.newLineOffsets.drop (k + 1)).map (· - position) }
        match tenv.reopenRes with
        | .err c => (s, some (.truncReopenFail c))
        | .ok newFd =>
          let s' := { s with fd := some newFd }
          match tenv.closeOldErr with
          | some c => (s', some (.truncCloseOldFail c))
          | none => (s', none)

/-! ## `_flush()` -/

/-- The accounting `_flush` performs after a write that transferred `k`
bytes of `buf`: bump the write counter, push a bare newline on a short
write, record newline offsets among the transferred bytes (shifted by the
pre-write `size`), then add to `bytesWritten`, `size` and `lines`. -/
def applyWrite (s : LoggerState) (buf : List Nat) (linesToBeWritten k : Nat) :
    LoggerState :=
  let s := { s with writeCalled := s.writeCalled + 1, file := s.file ++ buf.take k }
  let s :=
    if k ≠ buf.length then
      { s with pendingWrites := s.pendingWrites ++ [[newLineByte]] }
    else s
  let s :=
    { s with
      newLineOffsets := s.newLineOffsets ++
        (((List.range k).filter fun i => buf.getD i 0 == newLineByte).map
          fun i => s.size + i) }
  { s with
    bytesWritten := s.bytesWritten + k
    size := s.size + k
    lines := s.lines + linesToBeWritten }

/-- The `for` loop of the byte-size trigger: the first entry strictly
greater than `minimumOffset`, together with its index. -/
def findFirstOffset (minimumOffset : Nat) : List Nat → Option (Nat × Nat)
  | [] => none
  | o :: rest =>
    if minimumOffset < o then some (0, o)
    else (findFirstOffset minimumOffset rest).map fun p => (p.1 + 1, p.2)

/-- Result of the truncation check at the end of `_flush`: the final
state, the error (if any), and the `(position, lineIndex)` passed to
`_truncate` (if it was invoked). -/
structure TruncDecision where
  state : LoggerState
  err : Option LogError
  call : Option (Nat × Option Nat)
deriving DecidableEq, Repr

/-- The two truncation triggers at the end of `_flush`, in source order.
(When the line trigger fires, JS reads `newLineOffsets[1024]`, which is
`undefined` if out of range; the model totalizes with `getD _ 0`; the
theorems only use it under the length invariant that puts the index in
range.) -/
def truncCheck (s : LoggerState) (tenv : TruncEnv) : TruncDecision :=
  if MAX_LOG_LINES ≤ s.lines then
    let lineIndex := MAX_LOG_LINES / 4
    let offset := s.newLineOffsets.getD lineIndex 0
    let r := truncateStep s (offset + 1) (some lineIndex) tenv
    { state := r.1, err := r.2, call := some (offset + 1, some lineIndex) }
  else if MAX_LOG_FILE_SIZE ≤ s.size then
    let minimumOffset := MAX_LOG_FILE_SIZE / 4
    match findFirstOffset minimumOffset s.newLineOffsets with
    | some (i, o) =>
      let r := truncateStep s (o + 1) (some i) tenv
      { state := r.1, err := r.2, call := some (o + 1, some i) }
    | none =>
      let r := truncateStep s (minimumOffset + 1) none tenv
      { state := r.1, err := r.2, call := some (minimumOffset + 1, none) }
  else { state := s, err := none, call := none }

/-- Result of one `_flush()` round: final state, returned error,
the buffers passed to `fs.write` during the round, and the `_truncate`
call (if any). -/
structure RoundResult where
  state : LoggerState
  err : Option LogError
  writes : List (List Nat)
  truncCall : Option (Nat × Option Nat)
deriving DecidableEq, Repr

/-- One `_flush()` round: snapshot and clear the queue, build the joined
buffer, bail if the fd is poisoned, write once, account, then check the
truncation triggers. -/
def flushRound (s0 : LoggerState) (wr : WriteResult) (tenv : TruncEnv) :
    RoundResult :=
  let pw := s0.pendingWrites
  let s := { s0 with pendingWrites := [] }
  let linesToBeWritten := pw.length
  let buf := joinNl pw
  if s.fd.isNone then
    { state := s, err := some .fdNull, writes := [], truncCall := none }
  else
    match wr with
    | .err c =>
      { state := { s with writeCalled := s.writeCalled + 1 }
        err := some (.writeFail c)
        writes := [buf]
        truncCall := none }
    | .ok bytesWritten =>
      let s1 := applyWrite s buf linesToBeWritten bytesWritten
      let d := truncCheck s1 tenv
      { state := d.state, err := d.err, writes := [buf], truncCall := d.call }

/-- `flush()`: a no-op on an empty queue, otherwise one round whose error
(if any) is handed to the `onError` callback (the second component lists
the `onError` invocations); the caller's promise never rejects. -/
def flushTop (s : LoggerState) (wr : WriteResult) (tenv : TruncEnv) :
    LoggerState × List LogError :=
  if s.pendingWrites.isEmpty then (s, [])
  else
    let r := flushRound s wr tenv
    (r.state, r.err.toList)

/-- The state `_flush` has built right before the truncation check, for a
round whose write transferred the whole buffer. -/
def afterFullWrite (s0 : LoggerState) : LoggerState :=
  applyWrite { s0 with pendingWrites := [] } (joinNl s0.pendingWrites)
    s0.pendingWrites.length (joinNl s0.pendingWrites).length

/-! ## Line encoding (`_write`) -/

/-- The `fields` slot of a serialized `LogLine`: the caller's `info`
object, the shared `EMPTY_OBJECT` when `info` was falsy, or the
`{isTruncated: true}` replacement. -/
inductive FieldsVal (α : Type) where
  | obj (info : α)
  | emptyObject
  | isTruncatedTrue
deriving DecidableEq, Repr

/-- The `LogLine` record as handed to `JSON.stringify` (the fields the
claims inspect; `hostname`, `pid` and `v` ride along inside the abstract
serializer). -/
structure LogLineRec (α : Type) where
  name : String
  level : String
  msg : String
  time : Nat
  fields : FieldsVal α
  truncated : Option (List Nat)
deriving DecidableEq, Repr

/-- The first `new LogLine(...)` of `_write`: `info || EMPTY_OBJECT`,
no `truncated`. -/
def initialRec (name level msg : String) (info : Option α) (time : Nat) :
    LogLineRec α :=
  { name := name, level := level, msg := msg, time := time
    fields := match info with | some f => .obj f | none => .emptyObject
    truncated := none }

/-- The second `new LogLine(...)` of `_write`, built when the first
serialization exceeded the cap: level demoted `info → warn`,
`{isTruncated: true}` fields, and `str.slice(0, MAX_LOG_LINE_SIZE - 3)`
followed by `"..."` (`46` is the code unit of `'.'`). -/
def truncRec (name level msg : String) (time : Nat) (str : List Nat) :
    LogLineRec α :=
  { name := name
    level := if level = "info" then "warn" else level
    msg := msg, time := time
    fields := .isTruncatedTrue
    truncated := some (str.take (MAX_LOG_LINE_SIZE - 3) ++ [46, 46, 46]) }

/-- The serialization logic of `_write`, parameterized by the abstract
serializer `ser` (JS `JSON.stringify`; `.error` models a synchronous
throw).  Returns the record actually stored and its serialization. -/
def encodeLine (ser : LogLineRec α → Except Unit (List Nat))
    (name level msg : String) (info : Option α) (time : Nat) :
    Except Unit (LogLineRec α × List Nat) :=
  match ser (initialRec name level msg info time) with
  | .error e => .error e
  | .ok str =>
    if MAX_LOG_LINE_SIZE < str.length then
      let r : LogLineRec α := truncRec name level msg time str
      match ser r with
      | .error e => .error e
      | .ok str1 => .ok (r, str1)
    else .ok (initialRec name level msg info time, str)

/-- `_write(level, msg, info, time)`: encode (the `try` block), push,
flush; the `catch` branch hands the wrapped exception to `onError` and
returns `null` — the queue and the file are untouched. -/
def writeStep (ser : LogLineRec α → Except Unit (List Nat)) (s : LoggerState)
    (level msg : String) (info : Option α) (time : Nat)
    (wr : WriteResult) (tenv : TruncEnv) : LoggerState × List LogError :=
  match encodeLine ser s.productName level msg info time with
  | .error _ => (s, [.unexpectedWriteException])
  | .ok (_, str) =>
    flushTop { s with pendingWrites := s.pendingWrites ++ [str] } wr tenv

/-- `MainLogger._log`: the open guard and the message validation, then
the delegated write.  (The console echo and the error-to-object
normalization of `info` touch no logger state and are omitted; `msg = ""`
is the falsy-`msg` case.)  A `.error` result is a synchronous `throw`. -/
def mainLog (ser : LogLineRec α → Except Unit (List Nat)) (s : LoggerState)
    (level msg : String) (info : Option α) (time : Nat)
    (wr : WriteResult) (tenv : TruncEnv) :
    Except String (LoggerState × List LogError) :=
  if s.hasOpened = false then .error "Must call open() first."
  else if msg = "" then .error (level ++ "(msg); msg is mandatory")
  else .ok (writeStep ser s level msg info time wr tenv)

/-! ## The bookkeeping invariant -/

/-- The bookkeeping invariant tying the counters to the on-disk file:
the recorded offsets are exactly the newline positions of the file, the
recorded size is the file's byte length, and the line count matches the
offset count. -/
def StateWF (s : LoggerState) : Prop :=
  s.newLineOffsets = nlPos s.file ∧ s.size = s.file.length
    ∧ s.lines = s.newLineOffsets.length

instance (s : LoggerState) : Decidable (StateWF s) := by
  unfold StateWF
  infer_instance

/-! ## Concrete sample states and environments -/

/-- A truncation environment in which every I/O operation succeeds. -/
def allOkTruncEnv : TruncEnv :=
  { pipeErr := none, renameErr := none, closeErr := none
    openEnv := { mkdirErr := none, read := .ok, openRes := .ok 7 }
    reopenRes := .ok 7, closeOldErr := none }

/-- A truncation environment whose re-open step fails. -/
def reopenFailEnv : TruncEnv :=
  { pipeErr := none, renameErr := none, closeErr := none
    openEnv := { mkdirErr := none, read := .ok, openRes := .ok 7 }
    reopenRes := .err .EOTHER, closeOldErr := none }

/-- A fresh opened logger with 4096 pending (empty) lines queued: one
flush round pushes the line count to the rotation threshold. -/
def flushBurstState : LoggerState :=
  { productName := "p", fd := some 3, lines := 0, size := 0
    bytesWritten := 0, writeCalled := 0
    newLineOffsets := []
    pendingWrites := List.replicate 4096 []
    hasOpened := true
    file := [] }

/-- A fresh opened logger with the single pending line `"A"`. -/
def onePendingState : LoggerState :=
  { productName := "p", fd := some 3, lines := 0, size := 0
    bytesWritten := 0, writeCalled := 0, newLineOffsets := []
    pendingWrites := [[65]], hasOpened := true, file := [] }

/-- A fresh opened logger with the pending lines `"A"` and `"B"`. -/
def twoPendingState : LoggerState :=
  { productName := "p", fd := some 3, lines := 0, size := 0
    bytesWritten := 0, writeCalled := 0, newLineOffsets := []
    pendingWrites := [[65], [66]], hasOpened := true, file := [] }

/-- A logger whose fd is poisoned (`null`) while a line is pending. -/
def poisonedFdState : LoggerState :=
  { productName := "p", fd := none, lines := 0, size := 0
    bytesWritten := 0, writeCalled := 0, newLineOffsets := []
    pendingWrites := [[65]], hasOpened := true, file := [] }

/-- A well-formed logger state over the two-line file `"A\nB\n"`. -/
def twoLineState : LoggerState :=
  { productName := "p", fd := some 3, lines := 2, size := 4
    bytesWritten := 4, writeCalled := 1, newLineOffsets := [1, 3]
    pendingWrites := [], hasOpened := true, file := [65, 10, 66, 10] }

/-- A logger state over the file `"\nAAA"`: one newline at offset 0
followed by unterminated bytes. -/
def headNewlineState : LoggerState :=
  { productName := "p", fd := some 3, lines := 1, size := 4
    bytesWritten := 4, writeCalled := 1, newLineOffsets := [0]
    pendingWrites := [], hasOpened := true, file := [10, 65, 65, 65] }

/-- A serializer that always yields a 40000-unit string (over the 32 KiB
per-line cap). -/
def constSer : LogLineRec Unit → Except Unit (List Nat) :=
  fun _ => .ok (List.replicate 40000 65)

/-- A serializer that always yields the 1-unit string `"A"`. -/
def shortSer : LogLineRec Unit → Except Unit (List Nat) :=
  fun _ => .ok [65]

/-- A serializer that always throws (models `JSON.stringify` on a
circular `fields` graph). -/
def failSer : LogLineRec Unit → Except Unit (List Nat) :=
  fun _ => .error ()

/-- A logger state whose `size` counter sits exactly at the 32 MiB cap
while its only recorded newline offset (0) is below the 8 MiB mark, so
the byte-size trigger takes the degenerate (`lineIndex = -1`) cut. -/
def hugeSizeState : LoggerState :=
  { productName := "p", fd := some 3, lines := 1, size := 33554432
    bytesWritten := 33554432, writeCalled := 1, newLineOffsets := [0]
    pendingWrites := [], hasOpened := true, file := [10, 65, 65, 65] }

theorem nlPos_append (xs ys : List Nat) :
    nlPos (xs ++ ys) = nlPos xs ++ (nlPos ys).map (· + xs.length) := by
  induction xs with
  | nil => simp [nlPos]
  | cons b rest ih =>
    have hmap : ∀ l : List Nat,
        (l.map (· + rest.length)).map (· + 1) = l.map (· + (rest.length + 1)) := by
      intro l
      rw [List.map_map]
      apply List.map_congr_left
      intro a _
      simp [Function.comp, Nat.add_assoc]
    simp only [List.cons_append, nlPos, List.append_eq, ih, List.map_append,
      hmap, List.length_cons, List.append_assoc]

theorem length_fileLines_eq (bs : List Nat) :
    (fileLines bs).length = (nlPos bs).length := by
  induction bs with
  | nil => rfl
  | cons b rest ih =>
    by_cases hb : b = newLineByte
    · simp [fileLines, nlPos, hb, ih]
    · have h1 : fileLines (b :: rest)
          = match fileLines rest with
            | [] => []
            | l :: ls => (b :: l) :: ls := by
        simp [fileLines, hb]
      have h2 : nlPos (b :: rest) = (nlPos rest).map (· + 1) := by
        simp [nlPos, hb]
      rw [h1, h2, List.length_map, ← ih]
      cases fileLines rest <;> simp

theorem mem_nlPos_iff (bs : List Nat) (o : Nat) :
    o ∈ nlPos bs ↔ bs.get? o = some newLineByte := by
  induction bs generalizing o with
  | nil => simp [nlPos]
  | cons b rest ih =>
    by_cases hb : b = newLineByte
    · cases o with
      | zero => simp [nlPos, hb]
      | succ n => simp [nlPos, hb, ih]
    · cases o with
      | zero => simp [nlPos, hb]
      | succ n => simp [nlPos, hb, ih]

theorem nlPos_pairwise (bs : List Nat) :
    (nlPos bs).Pairwise (· < ·) := by
  induction bs with
  | nil => simp [nlPos]
  | cons b rest ih =>
    have hmap : ((nlPos rest).map (· + 1)).Pairwise (· < ·) := by
      rw [List.pairwise_map]
      exact ih.imp fun h => by omega
    by_cases hb : b = newLineByte
    · simp only [nlPos, if_pos hb, List.singleton_append, List.pairwise_cons]
      refine ⟨?_, hmap⟩
      intro x hx
      rcases List.mem_map.mp hx with ⟨y, _, rfl⟩
      omega
    · simpa [nlPos, hb] using hmap

theorem nlPos_lt_length {bs : List Nat} {o : Nat} (h : o ∈ nlPos bs) :
    o < bs.length := by
  have := (mem_nlPos_iff bs o).mp h
  exact List.get?_eq_some.mp this |>.1

theorem nlScan_cons (b : Nat) (rest : List Nat) :
    nlScan (b :: rest)
      = (if b = newLineByte then [0] else []) ++ (nlScan rest).map (· + 1) := by
  have hfun : ((fun i => (b :: rest).getD i 0 == newLineByte) ∘ Nat.succ)
      = (fun i => rest.getD i 0 == newLineByte) := by
    funext i
    simp [Function.comp, List.getD_cons_succ]
  have hsucc : ∀ l : List Nat, l.map Nat.succ = l.map (· + 1) := by
    intro l
    apply List.map_congr_left
    intro a _
    exact Nat.succ_eq_add_one a
  unfold nlScan
  rw [List.length_cons, List.range_succ_eq_map, List.filter_cons,
    List.filter_map, hfun, hsucc]
  by_cases hb : b = newLineByte
  · simp [List.getD_cons_zero, hb]
  · have hb' : (b == newLineByte) = false := by simpa using hb
    simp [List.getD_cons_zero, hb', hb]

theorem nlScan_eq_nlPos (bs : List Nat) : nlScan bs = nlPos bs := by
  induction bs with
  | nil => rfl
  | cons b rest ih =>
    rw [nlScan_cons, ih]
    simp [nlPos]

theorem getD_map_add_one (l : List Nat) (k : Nat) (hk : k < l.length) :
    (l.map (· + 1)).getD k 0 = l.getD k 0 + 1 := by
  induction l generalizing k with
  | nil => simp at hk
  | cons a t ih =>
    cases k with
    | zero => simp
    | succ n =>
      simp only [List.map_cons, List.getD_cons_succ]
      exact ih n (by simpa using hk)

theorem getD_mem_of_lt (l : List Nat) (k d : Nat) (hk : k < l.length) :
    l.getD k d ∈ l := by
  rw [List.getD_eq_getD_get? l d k, List.get?_eq_get hk]
  simp only [Option.getD_some]
  exact List.get_mem l k hk

theorem nlPos_getD_lt (bs : List Nat) (k : Nat) (hk : k < (nlPos bs).length) :
    (nlPos bs).getD k 0 < bs.length :=
  nlPos_lt_length (getD_mem_of_lt _ _ _ hk)

theorem sub_comp_add_one (q : Nat) :
    ((fun x => x - (q + 1 + 1)) ∘ fun x : Nat => x + 1) = fun x => x - (q + 1) := by
  funext x
  simp only [Function.comp]
  omega

theorem nlPos_drop (bs : List Nat) (k : Nat) (hk : k < (nlPos bs).length) :
    nlPos (bs.drop ((nlPos bs).getD k 0 + 1))
      = ((nlPos bs).drop (k + 1)).map (· - ((nlPos bs).getD k 0 + 1)) := by
  induction bs generalizing k with
  | nil => simp [nlPos] at hk
  | cons b rest ih =>
    by_cases hb : b = newLineByte
    · have hcons : nlPos (b :: rest) = 0 :: (nlPos rest).map (· + 1) := by
        simp [nlPos, hb]
      rw [hcons] at hk ⊢
      cases k with
      | zero =>
        simp only [List.getD_cons_zero, Nat.zero_add, List.drop_succ_cons,
          List.drop_zero, List.map_map]
        rw [show ((fun x => x - (0 + 1)) ∘ fun x : Nat => x + 1) = fun x => x from by
          funext x; simp]
        simp
      | succ n =>
        have hn : n < (nlPos rest).length := by
          simpa using hk
        simp only [List.getD_cons_succ, List.drop_succ_cons]
        rw [getD_map_add_one _ _ hn, ← List.map_drop, List.map_map,
          sub_comp_add_one]
        exact ih n hn
    · have hcons : nlPos (b :: rest) = (nlPos rest).map (· + 1) := by
        simp [nlPos, hb]
      rw [hcons] at hk ⊢
      have hn : k < (nlPos rest).length := by simpa using hk
      rw [getD_map_add_one _ _ hn, ← List.map_drop, List.map_map,
        List.drop_succ_cons, sub_comp_add_one]
      exact ih k hn

theorem fileLines_drop (bs : List Nat) (k : Nat) (hk : k < (nlPos bs).length) :
    fileLines (bs.drop ((nlPos bs).getD k 0 + 1)) = (fileLines bs).drop (k + 1) := by
  induction bs generalizing k with
  | nil => simp [nlPos] at hk
  | cons b rest ih =>
    by_cases hb : b = newLineByte
    · have hcons : nlPos (b :: rest) = 0 :: (nlPos rest).map (· + 1) := by
        simp [nlPos, hb]
      have hfl : fileLines (b :: rest) = [] :: fileLines rest := by
        simp [fileLines, hb]
      rw [hcons] at hk
      rw [hcons, hfl]
      cases k with
      | zero =>
        simp
      | succ n =>
        have hn : n < (nlPos rest).length := by simpa using hk
        simp only [List.getD_cons_succ, List.drop_succ_cons]
        rw [getD_map_add_one _ _ hn]
        exact ih n hn
    · have hcons : nlPos (b :: rest) = (nlPos rest).map (· + 1) := by
        simp [nlPos, hb]
      have hn : k < (nlPos rest).length := by
        rw [hcons] at hk; simpa using hk
      have hne : fileLines rest ≠ [] := by
        intro h
        have := length_fileLines_eq rest
        rw [h] at this
        simp at this
        omega
      obtain ⟨l, ls, hfl⟩ : ∃ l ls, fileLines rest = l :: ls := by
        cases h : fileLines rest with
        | nil => exact absurd h hne
        | cons l ls => exact ⟨l, ls, rfl⟩
      have hflcons : fileLines (b :: rest) = (b :: l) :: ls := by
        simp [fileLines, hb, hfl]
      rw [hcons, hflcons]
      rw [getD_map_add_one _ _ hn, List.drop_succ_cons]
      have := ih k hn
      rw [hfl] at this
      simpa using this

theorem nlPos_getD_add_one_le (bs : List Nat) (k : Nat)
    (hk : k < (nlPos bs).length) :
    (nlPos bs).getD k 0 + 1 ≤ bs.length :=
  nlPos_getD_lt bs k hk

theorem fileLines_nlfree_prefix {l : List Nat} (hl : newLineByte ∉ l)
    (rest : List Nat) :
    fileLines (l ++ newLineByte :: rest) = l :: fileLines rest := by
  induction l with
  | nil => simp [fileLines]
  | cons b t ih =>
    have hb : b ≠ newLineByte := fun h => hl (h ▸ List.mem_cons_self b t)
    have ht : newLineByte ∉ t := fun h => hl (List.mem_cons_of_mem b h)
    have h1 : fileLines ((b :: t) ++ newLineByte :: rest)
        = match fileLines (t ++ newLineByte :: rest) with
          | [] => []
          | l :: ls => (b :: l) :: ls := by
      simp [fileLines, hb]
    rw [h1, ih ht]

theorem fileLines_joinNl {ls : List (List Nat)}
    (h : ∀ l ∈ ls, newLineByte ∉ l) (hne : ls ≠ []) :
    fileLines (joinNl ls) = ls := by
  induction ls with
  | nil => exact absurd rfl hne
  | cons l rest ih =>
    cases rest with
    | nil =>
      have hl : newLineByte ∉ l := h l (List.mem_cons_self l [])
      show fileLines (interNl [l] ++ [newLineByte]) = [l]
      have : interNl [l] ++ [newLineByte] = l ++ newLineByte :: [] := by
        simp [interNl]
      rw [this, fileLines_nlfree_prefix hl]
      rfl
    | cons l' rest' =>
      have hl : newLineByte ∉ l := h l (List.mem_cons_self l _)
      have hrest : ∀ x ∈ l' :: rest', newLineByte ∉ x := fun x hx =>
        h x (List.mem_cons_of_mem l hx)
      have hjoin : joinNl (l :: l' :: rest')
          = l ++ newLineByte :: joinNl (l' :: rest') := by
        show interNl (l :: l' :: rest') ++ [newLineByte] = _
        simp [interNl, joinNl]
      rw [hjoin, fileLines_nlfree_prefix hl, ih hrest (by simp)]

theorem nlPos_joinNl_length {ls : List (List Nat)}
    (h : ∀ l ∈ ls, newLineByte ∉ l) (hne : ls ≠ []) :
    (nlPos (joinNl ls)).length = ls.length := by
  rw [← length_fileLines_eq, fileLines_joinNl h hne]

theorem applyWrite_full (s : LoggerState) (buf : List Nat) (n : Nat) :
    applyWrite s buf n buf.length =
      { s with
        writeCalled := s.writeCalled + 1
        file := s.file ++ buf
        newLineOffsets :=
          s.newLineOffsets ++ (nlScan buf).map (fun i => s.size + i)
        bytesWritten := s.bytesWritten + buf.length
        size := s.size + buf.length
        lines := s.lines + n } := by
  simp [applyWrite, nlScan]

theorem findFirstOffset_some {m : Nat} {l : List Nat} {i o : Nat}
    (h : findFirstOffset m l = some (i, o)) :
    i < l.length ∧ l.getD i 0 = o ∧ m < o := by
  induction l generalizing i o with
  | nil => simp [findFirstOffset] at h
  | cons a rest ih =>
    by_cases ha : m < a
    · simp only [findFirstOffset, if_pos ha, Option.some.injEq, Prod.mk.injEq] at h
      obtain ⟨rfl, rfl⟩ := h
      exact ⟨by simp, by simp, ha⟩
    · simp only [findFirstOffset, if_neg ha, Option.map_eq_some'] at h
      obtain ⟨⟨i', o'⟩, hfind, heq⟩ := h
      simp only [Prod.mk.injEq] at heq
      obtain ⟨hi, ho⟩ := heq
      obtain ⟨h1, h2, h3⟩ := ih hfind
      subst hi
      subst ho
      exact ⟨by simpa using Nat.succ_lt_succ h1,
        by simpa [List.getD_cons_succ] using h2, h3⟩

theorem truncateStep_nondegen_state (s : LoggerState) (p k : Nat)
    (tenv : TruncEnv) (hp : tenv.pipeErr = none) (hr : tenv.renameErr = none) :
    ∃ fd', (truncateStep s p (some k) tenv).1 =
      { s with
        file := s.file.drop p
        lines := s.lines - k - 1
        size := s.size - p
        newLineOffsets := (s.newLineOffsets.drop (k + 1)).map (· - p)
        fd := fd' } := by
  unfold truncateStep
  rw [hp, hr]
  cases tenv.reopenRes with
  | err c => exact ⟨s.fd, rfl⟩
  | ok newFd =>
    cases hc : tenv.closeOldErr with
    | some c => exact ⟨some newFd, by simp⟩
    | none => exact ⟨some newFd, by simp⟩

theorem truncateStep_success (s : LoggerState) (p k : Nat) (tenv : TruncEnv)
    (newFd : Nat) (hp : tenv.pipeErr = none) (hr : tenv.renameErr = none)
    (ho : tenv.reopenRes = .ok newFd) (hc : tenv.closeOldErr = none) :
    truncateStep s p (some k) tenv =
      ({ s with
         file := s.file.drop p
         lines := s.lines - k - 1
         size := s.size - p
         newLineOffsets := (s.newLineOffsets.drop (k + 1)).map (· - p)
         fd := some newFd }, none) := by
  unfold truncateStep
  rw [hp, hr, ho, hc]

theorem StateWF_truncateStep (s : LoggerState) (k : Nat) (tenv : TruncEnv)
    (hwf : StateWF s) (hk : k < s.newLineOffsets.length) :
    StateWF (truncateStep s (s.newLineOffsets.getD k 0 + 1) (some k) tenv).1 := by
  obtain ⟨hoff, hsize, hlines⟩ := hwf
  by_cases hp : tenv.pipeErr = none
  · by_cases hr : tenv.renameErr = none
    · obtain ⟨fd', heq⟩ := truncateStep_nondegen_state s
        (s.newLineOffsets.getD k 0 + 1) k tenv hp hr
      rw [heq]
      have hk' : k < (nlPos s.file).length := by rw [← hoff]; exact hk
      refine ⟨?_, ?_, ?_⟩
      · show (s.newLineOffsets.drop (k + 1)).map
            (· - (s.newLineOffsets.getD k 0 + 1))
          = nlPos (s.file.drop (s.newLineOffsets.getD k 0 + 1))
        rw [hoff, nlPos_drop s.file k hk']
      · show s.size - (s.newLineOffsets.getD k 0 + 1)
          = (s.file.drop (s.newLineOffsets.getD k 0 + 1)).length
        rw [List.length_drop, hsize]
      · show s.lines - k - 1
          = ((s.newLineOffsets.drop (k + 1)).map
              (· - (s.newLineOffsets.getD k 0 + 1))).length
        rw [List.length_map, List.length_drop, hlines]
        omega
    · obtain ⟨c, hc⟩ := Option.ne_none_iff_exists'.mp hr
      unfold truncateStep
      rw [hp, hc]
      exact ⟨hoff, hsize, hlines⟩
  · obtain ⟨c, hc⟩ := Option.ne_none_iff_exists'.mp hp
    unfold truncateStep
    rw [hc]
    exact ⟨hoff, hsize, hlines⟩

theorem afterFullWrite_eq (s0 : LoggerState) :
    afterFullWrite s0 =
      { s0 with
        pendingWrites := []
        writeCalled := s0.writeCalled + 1
        file := s0.file ++ joinNl s0.pendingWrites
        newLineOffsets := s0.newLineOffsets ++
          (nlScan (joinNl s0.pendingWrites)).map (fun i => s0.size + i)
        bytesWritten := s0.bytesWritten + (joinNl s0.pendingWrites).length
        size := s0.size + (joinNl s0.pendingWrites).length
        lines := s0.lines + s0.pendingWrites.length } := by
  unfold afterFullWrite
  rw [applyWrite_full]

theorem StateWF_afterFullWrite (s0 : LoggerState) (hwf : StateWF s0)
    (hnl : ∀ l ∈ s0.pendingWrites, newLineByte ∉ l)
    (hne : s0.pendingWrites ≠ []) :
    StateWF (afterFullWrite s0) := by
  obtain ⟨hoff, hsize, hlines⟩ := hwf
  rw [afterFullWrite_eq]
  refine ⟨?_, ?_, ?_⟩
  · show s0.newLineOffsets ++
        (nlScan (joinNl s0.pendingWrites)).map (fun i => s0.size + i)
      = nlPos (s0.file ++ joinNl s0.pendingWrites)
    rw [nlPos_append, hoff, nlScan_eq_nlPos]
    congr 1
    apply List.map_congr_left
    intro a _
    rw [hsize]
    exact Nat.add_comm s0.file.length a
  · show s0.size + (joinNl s0.pendingWrites).length
      = (s0.file ++ joinNl s0.pendingWrites).length
    rw [List.length_append, hsize]
  · show s0.lines + s0.pendingWrites.length
      = (s0.newLineOffsets ++
          (nlScan (joinNl s0.pendingWrites)).map (fun i => s0.size + i)).length
    rw [List.length_append, List.length_map, nlScan_eq_nlPos,
      nlPos_joinNl_length hnl hne, hlines]

theorem flushRound_ok_eq (s0 : LoggerState) (k : Nat) (tenv : TruncEnv)
    (f : Nat) (hfd : s0.fd = some f) :
    flushRound s0 (.ok k) tenv =
      { state := (truncCheck (applyWrite { s0 with pendingWrites := [] }
          (joinNl s0.pendingWrites) s0.pendingWrites.length k) tenv).state
        err := (truncCheck (applyWrite { s0 with pendingWrites := [] }
          (joinNl s0.pendingWrites) s0.pendingWrites.length k) tenv).err
        writes := [joinNl s0.pendingWrites]
        truncCall := (truncCheck (applyWrite { s0 with pendingWrites := [] }
          (joinNl s0.pendingWrites) s0.pendingWrites.length k) tenv).call } := by
  unfold flushRound
  simp [hfd]

theorem flushRound_err_eq (s0 : LoggerState) (c : ErrCode) (tenv : TruncEnv)
    (f : Nat) (hfd : s0.fd = some f) :
    flushRound s0 (.err c) tenv =
      { state := { s0 with pendingWrites := [], writeCalled := s0.writeCalled + 1 }
        err := some (.writeFail c)
        writes := [joinNl s0.pendingWrites]
        truncCall := none } := by
  unfold flushRound
  simp [hfd]

theorem flushRound_fdNone_eq (s0 : LoggerState) (wr : WriteResult)
    (tenv : TruncEnv) (hfd : s0.fd = none) :
    flushRound s0 wr tenv =
      { state := { s0 with pendingWrites := [] }
        err := some .fdNull
        writes := []
        truncCall := none } := by
  unfold flushRound
  simp [hfd]

theorem truncCheck_lineTrigger (s1 : LoggerState) (tenv : TruncEnv)
    (h1 : MAX_LOG_LINES ≤ s1.lines) :
    truncCheck s1 tenv =
      { state := (truncateStep s1
          (s1.newLineOffsets.getD (MAX_LOG_LINES / 4) 0 + 1)
          (some (MAX_LOG_LINES / 4)) tenv).1
        err := (truncateStep s1
          (s1.newLineOffsets.getD (MAX_LOG_LINES / 4) 0 + 1)
          (some (MAX_LOG_LINES / 4)) tenv).2
        call := some (s1.newLineOffsets.getD (MAX_LOG_LINES / 4) 0 + 1,
          some (MAX_LOG_LINES / 4)) } := by
  unfold truncCheck
  rw [if_pos h1]

theorem truncCheck_sizeTrigger_found (s1 : LoggerState) (tenv : TruncEnv)
    (i o : Nat) (h1 : ¬ MAX_LOG_LINES ≤ s1.lines)
    (h2 : MAX_LOG_FILE_SIZE ≤ s1.size)
    (hf : findFirstOffset (MAX_LOG_FILE_SIZE / 4) s1.newLineOffsets
      = some (i, o)) :
    truncCheck s1 tenv =
      { state := (truncateStep s1 (o + 1) (some i) tenv).1
        err := (truncateStep s1 (o + 1) (some i) tenv).2
        call := some (o + 1, some i) } := by
  unfold truncCheck
  rw [if_neg h1, if_pos h2]
  simp [hf]

theorem truncCheck_sizeTrigger_none (s1 : LoggerState) (tenv : TruncEnv)
    (h1 : ¬ MAX_LOG_LINES ≤ s1.lines) (h2 : MAX_LOG_FILE_SIZE ≤ s1.size)
    (hf : findFirstOffset (MAX_LOG_FILE_SIZE / 4) s1.newLineOffsets = none) :
    truncCheck s1 tenv =
      { state := (truncateStep s1 (MAX_LOG_FILE_SIZE / 4 + 1) none tenv).1
        err := (truncateStep s1 (MAX_LOG_FILE_SIZE / 4 + 1) none tenv).2
        call := some (MAX_LOG_FILE_SIZE / 4 + 1, none) } := by
  unfold truncCheck
  rw [if_neg h1, if_pos h2]
  simp [hf]

theorem truncCheck_noTrigger (s1 : LoggerState) (tenv : TruncEnv)
    (h1 : ¬ MAX_LOG_LINES ≤ s1.lines) (h2 : ¬ MAX_LOG_FILE_SIZE ≤ s1.size) :
    truncCheck s1 tenv = { state := s1, err := none, call := none } := by
  unfold truncCheck
  rw [if_neg h1, if_neg h2]

theorem StateWF_truncCheck (s1 : LoggerState) (tenv : TruncEnv)
    (hwf : StateWF s1)
    (hdeg : (truncCheck s1 tenv).call ≠ some (MAX_LOG_FILE_SIZE / 4 + 1, none)) :
    StateWF (truncCheck s1 tenv).state := by
  by_cases h1 : MAX_LOG_LINES ≤ s1.lines
  · rw [truncCheck_lineTrigger s1 tenv h1]
    have hk : MAX_LOG_LINES / 4 < s1.newLineOffsets.length := by
      have := hwf.2.2
      simp only [MAX_LOG_LINES] at h1 ⊢
      omega
    exact StateWF_truncateStep s1 (MAX_LOG_LINES / 4) tenv hwf hk
  · by_cases h2 : MAX_LOG_FILE_SIZE ≤ s1.size
    · cases hf : findFirstOffset (MAX_LOG_FILE_SIZE / 4) s1.newLineOffsets with
      | some p =>
        obtain ⟨i, o⟩ := p
        rw [truncCheck_sizeTrigger_found s1 tenv i o h1 h2 hf]
        obtain ⟨hi, hgd, _⟩ := findFirstOffset_some hf
        have := StateWF_truncateStep s1 i tenv hwf hi
        rw [hgd] at this
        exact this
      | none =>
        rw [truncCheck_sizeTrigger_none s1 tenv h1 h2 hf] at hdeg
        simp at hdeg
    · rw [truncCheck_noTrigger s1 tenv h1 h2]
      exact hwf

theorem openFdStep_writeCalled (s : LoggerState) (env : OpenEnv) :
    (openFdStep s env).1.writeCalled = s.writeCalled := by
  unfold openFdStep
  cases env.openRes <;> rfl

theorem openLogger_writeCalled (s : LoggerState) (env : OpenEnv) :
    (openLogger s env).1.writeCalled = s.writeCalled := by
  unfold openLogger
  by_cases hfd : s.fd.isSome
  · rw [if_pos hfd]
  · rw [if_neg hfd]
    cases env.mkdirErr with
    | some c => rfl
    | none =>
      cases hr : env.read with
      | err c =>
        by_cases hc : c = ErrCode.ENOENT
        · have hc' : ¬ (c ≠ ErrCode.ENOENT) := by simpa using hc
          simp only [if_neg hc']
          exact openFdStep_writeCalled s env
        · have hc' : c ≠ ErrCode.ENOENT := hc
          simp only [if_pos hc']
      | ok => exact openFdStep_writeCalled _ env

theorem truncateStep_writeCalled (s : LoggerState) (p : Nat)
    (li : Option Nat) (tenv : TruncEnv) :
    (truncateStep s p li tenv).1.writeCalled = s.writeCalled := by
  unfold truncateStep
  cases tenv.pipeErr with
  | some c => rfl
  | none =>
    cases tenv.renameErr with
    | some c => rfl
    | none =>
      cases li with
      | none =>
        cases tenv.closeErr with
        | some c => rfl
        | none => exact openLogger_writeCalled _ _
      | some k =>
        cases tenv.reopenRes with
        | err c => rfl
        | ok newFd =>
          cases tenv.closeOldErr with
          | some c => rfl
          | none => rfl

theorem truncCheck_writeCalled (s : LoggerState) (tenv : TruncEnv) :
    (truncCheck s tenv).state.writeCalled = s.writeCalled := by
  by_cases h1 : MAX_LOG_LINES ≤ s.lines
  · rw [truncCheck_lineTrigger s tenv h1]
    exact truncateStep_writeCalled _ _ _ _
  · by_cases h2 : MAX_LOG_FILE_SIZE ≤ s.size
    · cases hf : findFirstOffset (MAX_LOG_FILE_SIZE / 4) s.newLineOffsets with
      | some p =>
        obtain ⟨i, o⟩ := p
        rw [truncCheck_sizeTrigger_found s tenv i o h1 h2 hf]
        exact truncateStep_writeCalled _ _ _ _
      | none =>
        rw [truncCheck_sizeTrigger_none s tenv h1 h2 hf]
        exact truncateStep_writeCalled _ _ _ _
    · rw [truncCheck_noTrigger s tenv h1 h2]

theorem applyWrite_writeCalled (s : LoggerState) (buf : List Nat) (n k : Nat) :
    (applyWrite s buf n k).writeCalled = s.writeCalled + 1 := by
  unfold applyWrite
  by_cases h : k ≠ buf.length <;> simp [h]

theorem nlPos_replicate_newline (n : Nat) :
    nlPos (List.replicate n newLineByte) = List.range n := by
  induction n with
  | zero => rfl
  | succ m ih =>
    have hmap : (List.range m).map (· + 1) = (List.range m).map Nat.succ := by
      apply List.map_congr_left
      intro a _
      simp
    rw [List.replicate_succ, List.range_succ_eq_map]
    show (if newLineByte = newLineByte then [0] else [])
        ++ (nlPos (List.replicate m newLineByte)).map (· + 1)
      = 0 :: (List.range m).map Nat.succ
    rw [if_pos rfl, ih, hmap]
    rfl

/-- **C6 (amended).** After every completed flush whose underlying write
transferred the whole buffer and whose flushed lines contain no raw
newline byte, provided the bookkeeping invariant held beforehand and any
truncation the flush triggers is non-degenerate, the invariant holds
afterwards: `newLineOffsets.length` equals `lines`, `newLineOffsets` is
strictly increasing, and each entry is the position of a `'\n'` byte
actually present in the file.  (As stated — for *every* completed flush,
partial writes included — the claim fails: a partial write bumps `lines`
by the full snapshot count while recording only the newlines actually
transferred, as the source itself documents; see the counterexample.) -/
theorem flush_preserves_offsets_invariant (s0 : LoggerState) (f : Nat)
    (tenv : TruncEnv)
    (hwf : StateWF s0)
    (hnl : ∀ l ∈ s0.pendingWrites, newLineByte ∉ l)
    (hne : s0.pendingWrites ≠ [])
    (hfd : s0.fd = some f)
    (hdeg : (flushRound s0 (.ok (joinNl s0.pendingWrites).length) tenv).truncCall
      ≠ some (MAX_LOG_FILE_SIZE / 4 + 1, none)) :
    (flushRound s0 (.ok (joinNl s0.pendingWrites).length)
        tenv).state.newLineOffsets.length
      = (flushRound s0 (.ok (joinNl s0.pendingWrites).length) tenv).state.lines ∧
    (flushRound s0 (.ok (joinNl s0.pendingWrites).length)
        tenv).state.newLineOffsets.Pairwise (· < ·) ∧
    ∀ o ∈ (flushRound s0 (.ok (joinNl s0.pendingWrites).length)
        tenv).state.newLineOffsets,
      (flushRound s0 (.ok (joinNl s0.pendingWrites).length) tenv).state.file.get? o
        = some newLineByte := by
  have hr : flushRound s0 (.ok (joinNl s0.pendingWrites).length) tenv
      = { state := (truncCheck (afterFullWrite s0) tenv).state
          err := (truncCheck (afterFullWrite s0) tenv).err
          writes := [joinNl s0.pendingWrites]
          truncCall := (truncCheck (afterFullWrite s0) tenv).call } :=
    flushRound_ok_eq s0 (joinNl s0.pendingWrites).length tenv f hfd
  have hs1 : StateWF (afterFullWrite s0) := StateWF_afterFullWrite s0 hwf hnl hne
  rw [hr] at hdeg
  simp only [hr]
  obtain ⟨h1, h2, h3⟩ := StateWF_truncCheck (afterFullWrite s0) tenv hs1 hdeg
  refine ⟨h3.symm, ?_, ?_⟩
  · rw [h1]
    exact nlPos_pairwise _
  · intro o ho
    rw [h1] at ho
    exact (mem_nlPos_iff _ o).mp ho

/-- **C6 counterexample.** A completed flush whose underlying write
transferred only 1 of the 2 requested bytes (the pending line `"A"`
produced the buffer `"A\n"`): afterwards `newLineOffsets.length = 0` but
`lines = 1`, so the claimed equality fails for a completed flush with a
partial write. -/
theorem flush_invariant_shortWrite_counterexample :
    (flushRound onePendingState (.ok 1)
        allOkTruncEnv).state.newLineOffsets.length = 0 ∧
    (flushRound onePendingState (.ok 1) allOkTruncEnv).state.lines = 1 ∧
    ¬ ((flushRound onePendingState (.ok 1)
          allOkTruncEnv).state.newLineOffsets.length
        = (flushRound onePendingState (.ok 1) allOkTruncEnv).state.lines) := by
  decide

/-- **C3.** For every non-empty snapshot `[l1, ..., ln]` of the pending
queue, a flush round issues exactly one underlying write (the write
counter increases by exactly 1 whatever the write's outcome); its buffer
is `l1 ++ '\n' ++ ... ++ ln ++ '\n'`, so all `n` lines queued before the
round started land in that single write in issuance order (the buffer's
line decomposition is exactly the snapshot). -/
theorem flushRound_single_write (s0 : LoggerState) (f : Nat)
    (wr : WriteResult) (tenv : TruncEnv)
    (hfd : s0.fd = some f) (hne : s0.pendingWrites ≠ []) :
    (flushRound s0 wr tenv).writes = [joinNl s0.pendingWrites] ∧
    (flushRound s0 wr tenv).state.writeCalled = s0.writeCalled + 1 ∧
    joinNl s0.pendingWrites = interNl s0.pendingWrites ++ [newLineByte] ∧
    ((∀ l ∈ s0.pendingWrites, newLineByte ∉ l) →
      fileLines (joinNl s0.pendingWrites) = s0.pendingWrites) := by
  refine ⟨?_, ?_, rfl, fun hnl => fileLines_joinNl hnl hne⟩
  · cases wr with
    | err c => rw [flushRound_err_eq s0 c tenv f hfd]
    | ok k => rw [flushRound_ok_eq s0 k tenv f hfd]
  · cases wr with
    | err c =>
      rw [flushRound_err_eq s0 c tenv f hfd]
    | ok k =>
      rw [flushRound_ok_eq s0 k tenv f hfd]
      show (truncCheck (applyWrite { s0 with pendingWrites := [] }
        (joinNl s0.pendingWrites) s0.pendingWrites.length k) tenv).state.writeCalled
          = s0.writeCalled + 1
      rw [truncCheck_writeCalled, applyWrite_writeCalled]

/-- Witness for C3 at a concrete input: two pending lines `"A"`, `"B"`. -/
theorem flushRound_single_write_witness :
    twoPendingState.fd = some 3 ∧ twoPendingState.pendingWrites ≠ [] ∧
    ((flushRound twoPendingState (.ok 4) allOkTruncEnv).writes
        = [joinNl twoPendingState.pendingWrites] ∧
      (flushRound twoPendingState (.ok 4) allOkTruncEnv).state.writeCalled
        = twoPendingState.writeCalled + 1 ∧
      joinNl twoPendingState.pendingWrites
        = interNl twoPendingState.pendingWrites ++ [newLineByte] ∧
      ((∀ l ∈ twoPendingState.pendingWrites, newLineByte ∉ l) →
        fileLines (joinNl twoPendingState.pendingWrites)
          = twoPendingState.pendingWrites)) :=
  ⟨rfl, by decide,
    flushRound_single_write twoPendingState 3 (.ok 4) allOkTruncEnv rfl (by decide)⟩

theorem flushRound_ok_full_eq (s0 : LoggerState) (tenv : TruncEnv) (f : Nat)
    (hfd : s0.fd = some f) :
    flushRound s0 (.ok (joinNl s0.pendingWrites).length) tenv
      = { state := (truncCheck (afterFullWrite s0) tenv).state
          err := (truncCheck (afterFullWrite s0) tenv).err
          writes := [joinNl s0.pendingWrites]
          truncCall := (truncCheck (afterFullWrite s0) tenv).call } :=
  flushRound_ok_eq s0 (joinNl s0.pendingWrites).length tenv f hfd

/-- **C1.** If a completed flush (full write, well-formed bookkeeping)
leaves the line count at or above 4096, the flush invokes truncation with
cut line index `floor(4096/4) = 1024` and cut byte position
`newLineOffsets[1024] + 1`, and on success exactly 1025 of the oldest
lines are removed: `lines` decreases by 1025, `size` decreases by the cut
position, the first 1025 offset entries are dropped (the survivors
re-based), and the retained newest lines keep their relative order and
content (the file's line decomposition afterwards is the old one with its
first 1025 lines dropped). -/
theorem flush_lineCount_rotation (s0 : LoggerState) (f f' : Nat)
    (tenv : TruncEnv) (s1 : LoggerState) (p : Nat)
    (hs1 : s1 = afterFullWrite s0)
    (hp : p = s1.newLineOffsets.getD 1024 0 + 1)
    (hfd : s0.fd = some f)
    (hne : s0.pendingWrites ≠ [])
    (hnl : ∀ l ∈ s0.pendingWrites, newLineByte ∉ l)
    (hwf : StateWF s0)
    (hpipe : tenv.pipeErr = none) (hrename : tenv.renameErr = none)
    (hreopen : tenv.reopenRes = .ok f') (hcloseOld : tenv.closeOldErr = none)
    (htrig : MAX_LOG_LINES ≤ s1.lines) :
    (flushRound s0 (.ok (joinNl s0.pendingWrites).length) tenv
      = { state :=
            { s1 with
              lines := s1.lines - 1025
              size := s1.size - p
              newLineOffsets := (s1.newLineOffsets.drop 1025).map (· - p)
              file := s1.file.drop p
              fd := some f' }
          err := none
          writes := [joinNl s0.pendingWrites]
          truncCall := some (p, some 1024) }) ∧
    fileLines (s1.file.drop p) = (fileLines s1.file).drop 1025 := by
  subst hs1
  subst hp
  have hMLL : MAX_LOG_LINES / 4 = 1024 := by decide
  have hwf1 : StateWF (afterFullWrite s0) := StateWF_afterFullWrite s0 hwf hnl hne
  have hk : 1024 < (nlPos (afterFullWrite s0).file).length := by
    have h1 := hwf1.1
    have h3 := hwf1.2.2
    rw [h1] at h3
    simp only [MAX_LOG_LINES] at htrig
    omega
  constructor
  · have htc := truncCheck_lineTrigger (afterFullWrite s0) tenv htrig
    rw [hMLL] at htc
    have hts := truncateStep_success (afterFullWrite s0)
      ((afterFullWrite s0).newLineOffsets.getD 1024 0 + 1) 1024 tenv f'
      hpipe hrename hreopen hcloseOld
    rw [flushRound_ok_full_eq s0 tenv f hfd, htc, hts]
    have e1 : (afterFullWrite s0).lines - 1024 - 1
        = (afterFullWrite s0).lines - 1025 := by omega
    have e2 : (1024 : Nat) + 1 = 1025 := by norm_num
    rw [e1, e2]
  · have hgd : (afterFullWrite s0).newLineOffsets.getD 1024 0
        = (nlPos (afterFullWrite s0).file).getD 1024 0 := by
      rw [hwf1.1]
    rw [hgd, fileLines_drop (afterFullWrite s0).file 1024 hk]

/-- Witness for C1: a flush of 4096 queued lines against an empty file
reaches the 4096-line trigger. -/
theorem flush_lineCount_rotation_witness :
    StateWF flushBurstState ∧
    MAX_LOG_LINES ≤ (afterFullWrite flushBurstState).lines ∧
    ((flushRound flushBurstState
        (.ok (joinNl flushBurstState.pendingWrites).length) allOkTruncEnv
      = { state :=
            { afterFullWrite flushBurstState with
              lines := (afterFullWrite flushBurstState).lines - 1025
              size := (afterFullWrite flushBurstState).size
                - ((afterFullWrite flushBurstState).newLineOffsets.getD 1024 0 + 1)
              newLineOffsets :=
                ((afterFullWrite flushBurstState).newLineOffsets.drop 1025).map
                  (· - ((afterFullWrite
                      flushBurstState).newLineOffsets.getD 1024 0 + 1))
              file := (afterFullWrite flushBurstState).file.drop
                ((afterFullWrite flushBurstState).newLineOffsets.getD 1024 0 + 1)
              fd := some 7 }
          err := none
          writes := [joinNl flushBurstState.pendingWrites]
          truncCall := some
            ((afterFullWrite flushBurstState).newLineOffsets.getD 1024 0 + 1,
              some 1024) }) ∧
      fileLines ((afterFullWrite flushBurstState).file.drop
          ((afterFullWrite flushBurstState).newLineOffsets.getD 1024 0 + 1))
        = (fileLines (afterFullWrite flushBurstState).file).drop 1025) := by
  have hwf : StateWF flushBurstState := ⟨rfl, rfl, rfl⟩
  have hpw : flushBurstState.pendingWrites = List.replicate 4096 ([] : List Nat) :=
    rfl
  have hln : flushBurstState.lines = 0 := rfl
  have hne : flushBurstState.pendingWrites ≠ [] := by
    rw [hpw]
    intro h
    have hlen := congrArg List.length h
    rw [List.length_replicate] at hlen
    exact absurd hlen (by norm_num)
  have hnl : ∀ l ∈ flushBurstState.pendingWrites, newLineByte ∉ l := by
    intro l hl
    rw [hpw] at hl
    rw [List.eq_of_mem_replicate hl]
    simp
  have htrig : MAX_LOG_LINES ≤ (afterFullWrite flushBurstState).lines := by
    have hlines : (afterFullWrite flushBurstState).lines
        = flushBurstState.lines + flushBurstState.pendingWrites.length := by
      rw [afterFullWrite_eq]
    rw [hlines, hpw, hln, List.length_replicate]
    norm_num [MAX_LOG_LINES]
  refine ⟨hwf, htrig, ?_⟩
  exact flush_lineCount_rotation flushBurstState 3 7 allOkTruncEnv
    (afterFullWrite flushBurstState)
    ((afterFullWrite flushBurstState).newLineOffsets.getD 1024 0 + 1)
    rfl rfl rfl hne hnl hwf rfl rfl rfl rfl htrig

/-- **C9 counterexample.** A truncation whose re-open step fails: the
wrapped error is surfaced, but `lines` has already been updated from 2 to
1, so the in-memory counters do not remain at their pre-truncation
values as the claim states. -/
theorem truncate_failure_counterexample :
    (truncateStep twoLineState 2 (some 0) reopenFailEnv).2
      = some (.truncReopenFail .EOTHER) ∧
    ¬ ((truncateStep twoLineState 2 (some 0) reopenFailEnv).1.lines
        = twoLineState.lines) := by
  decide

/-- **C9 (amended).** Every truncation-step failure is surfaced as a
wrapped error through the same channel as write errors (the round's error
value, which `flush()` hands to `onError`).  A pipeline or rename failure
leaves the in-memory state at its pre-truncation values; a re-open or
close-old-fd failure happens after `lines`, `size` and `newLineOffsets`
have already been rebased to their post-truncation values (and a
degenerate-branch close failure after the reset to zero), so only the
copy and rename steps leave the counters untouched. -/
theorem truncate_failure_handling :
    (∀ (s : LoggerState) (p : Nat) (li : Option Nat) (tenv : TruncEnv)
        (c : ErrCode), tenv.pipeErr = some c →
      truncateStep s p li tenv = (s, some (.truncPipeFail c))) ∧
    (∀ (s : LoggerState) (p : Nat) (li : Option Nat) (tenv : TruncEnv)
        (c : ErrCode), tenv.pipeErr = none → tenv.renameErr = some c →
      truncateStep s p li tenv = (s, some (.truncRenameFail c))) ∧
    (∀ (s : LoggerState) (p k : Nat) (tenv : TruncEnv) (c : ErrCode),
      tenv.pipeErr = none → tenv.renameErr = none →
      tenv.reopenRes = .err c →
      truncateStep s p (some k) tenv =
        ({ s with
            file := s.file.drop p
            lines := s.lines - k - 1
            size := s.size - p
            newLineOffsets := (s.newLineOffsets.drop (k + 1)).map (· - p) },
         some (.truncReopenFail c))) ∧
    (∀ (s : LoggerState) (p k : Nat) (tenv : TruncEnv) (c : ErrCode)
        (newFd : Nat),
      tenv.pipeErr = none → tenv.renameErr = none →
      tenv.reopenRes = .ok newFd → tenv.closeOldErr = some c →
      truncateStep s p (some k) tenv =
        ({ s with
            file := s.file.drop p
            lines := s.lines - k - 1
            size := s.size - p
            newLineOffsets := (s.newLineOffsets.drop (k + 1)).map (· - p)
            fd := some newFd },
         some (.truncCloseOldFail c))) ∧
    (∀ (s : LoggerState) (p : Nat) (tenv : TruncEnv) (c : ErrCode),
      tenv.pipeErr = none → tenv.renameErr = none →
      tenv.closeErr = some c →
      truncateStep s p none tenv =
        ({ s with
            file := s.file.drop p
            lines := 0
            size := 0
            newLineOffsets := []
            fd := none },
         some (.truncCloseFail c))) ∧
    (∀ (s : LoggerState) (wr : WriteResult) (tenv : TruncEnv),
      s.pendingWrites ≠ [] →
      flushTop s wr tenv
        = ((flushRound s wr tenv).state, (flushRound s wr tenv).err.toList)) := by
  refine ⟨?_, ?_, ?_, ?_, ?_, ?_⟩
  · intro s p li tenv c hp
    unfold truncateStep
    rw [hp]
  · intro s p li tenv c hp hr
    unfold truncateStep
    rw [hp, hr]
  · intro s p k tenv c hp hr hro
    unfold truncateStep
    rw [hp, hr, hro]
  · intro s p k tenv c newFd hp hr hro hco
    unfold truncateStep
    rw [hp, hr, hro, hco]
  · intro s p tenv c hp hr hc
    unfold truncateStep
    rw [hp, hr, hc]
  · intro s wr tenv hne
    have hie : s.pendingWrites.isEmpty = false := by
      cases hpw : s.pendingWrites with
      | nil => exact absurd hpw hne
      | cons a t => rfl
    simp [flushTop, hie]

/-- Witness for C9 (amended), one concrete instance per failing step plus
the error channel. -/
theorem truncate_failure_handling_witness :
    (truncateStep twoLineState 2 (some 0)
        { pipeErr := some .EOTHER, renameErr := none, closeErr := none
          openEnv := { mkdirErr := none, read := .ok, openRes := .ok 7 }
          reopenRes := .ok 7, closeOldErr := none }
      = (twoLineState, some (.truncPipeFail .EOTHER))) ∧
    (truncateStep twoLineState 2 (some 0)
        { pipeErr := none, renameErr := some .EOTHER, closeErr := none
          openEnv := { mkdirErr := none, read := .ok, openRes := .ok 7 }
          reopenRes := .ok 7, closeOldErr := none }
      = (twoLineState, some (.truncRenameFail .EOTHER))) ∧
    (truncateStep twoLineState 2 (some 0) reopenFailEnv
      = ({ twoLineState with
            file := twoLineState.file.drop 2
            lines := twoLineState.lines - 0 - 1
            size := twoLineState.size - 2
            newLineOffsets :=
              (twoLineState.newLineOffsets.drop (0 + 1)).map (· - 2) },
         some (.truncReopenFail .EOTHER))) ∧
    (truncateStep twoLineState 2 (some 0)
        { pipeErr := none, renameErr := none, closeErr := none
          openEnv := { mkdirErr := none, read := .ok, openRes := .ok 7 }
          reopenRes := .ok 7, closeOldErr := some .EOTHER }
      = ({ twoLineState with
            file := twoLineState.file.drop 2
            lines := twoLineState.lines - 0 - 1
            size := twoLineState.size - 2
            newLineOffsets :=
              (twoLineState.newLineOffsets.drop (0 + 1)).map (· - 2)
            fd := some 7 },
         some (.truncCloseOldFail .EOTHER))) ∧
    (truncateStep twoLineState 2 none
        { pipeErr := none, renameErr := none, closeErr := some .EOTHER
          openEnv := { mkdirErr := none, read := .ok, openRes := .ok 7 }
          reopenRes := .ok 7, closeOldErr := none }
      = ({ twoLineState with
            file := twoLineState.file.drop 2
            lines := 0
            size := 0
            newLineOffsets := []
            fd := none },
         some (.truncCloseFail .EOTHER))) ∧
    (flushTop onePendingState (.ok 2) allOkTruncEnv
      = ((flushRound onePendingState (.ok 2) allOkTruncEnv).state,
         (flushRound onePendingState (.ok 2) allOkTruncEnv).err.toList)) :=
  ⟨truncate_failure_handling.1 _ _ _ _ _ rfl,
   truncate_failure_handling.2.1 _ _ _ _ _ rfl rfl,
   truncate_failure_handling.2.2.1 _ _ _ _ _ rfl rfl rfl,
   truncate_failure_handling.2.2.2.1 _ _ _ _ _ _ rfl rfl rfl rfl,
   truncate_failure_handling.2.2.2.2.1 _ _ _ _ rfl rfl rfl,
   truncate_failure_handling.2.2.2.2.2 _ _ _ (by decide)⟩

/-- **C2 (divergence at the degenerate cut).** When the byte-size trigger
finds no recorded offset strictly above the 8 MiB mark, `_flush` calls
`_truncate(8388609, -1)`; the degenerate branch resets `lines`, `size`
and `newLineOffsets` and closes the descriptor, but the `open()` it then
calls bails out immediately with the double-open error because `this.fd`
was never cleared after the successful close: the recovery scan never
runs, no fresh descriptor is obtained, and the stale closed descriptor
stays in `fd`. -/
theorem truncate_degenerate_no_recovery :
    (truncCheck hugeSizeState allOkTruncEnv).call
      = some (MAX_LOG_FILE_SIZE / 4 + 1, none) ∧
    (truncCheck hugeSizeState allOkTruncEnv).err = some .doubleOpen ∧
    (truncCheck hugeSizeState allOkTruncEnv).state
      = { hugeSizeState with
          lines := 0
          size := 0
          newLineOffsets := []
          file := [] } := by
  decide

theorem openLogger_success (s : LoggerState) (env : OpenEnv) (f : Nat)
    (hfd : s.fd = none) (hm : env.mkdirErr = none) (hr : env.read = .ok)
    (ho : env.openRes = .ok f) :
    openLogger s env
      = ({ s with
           size := s.file.length
           newLineOffsets := nlScan s.file
           lines := (nlScan s.file).length
           hasOpened := true
           fd := some f }, none) := by
  unfold openLogger openFdStep
  rw [hfd, hm, hr, ho]
  rfl

theorem openLogger_enoent (s : LoggerState) (env : OpenEnv) (f : Nat)
    (hfd : s.fd = none) (hm : env.mkdirErr = none)
    (hr : env.read = .err .ENOENT) (ho : env.openRes = .ok f) :
    openLogger s env = ({ s with hasOpened := true, fd := some f }, none) := by
  unfold openLogger openFdStep
  rw [hfd, hm, hr, ho]
  rfl

/-- **C4.** A successful `open()` on a pre-existing file with content `B`
sets `size` to `B`'s byte length, `newLineOffsets` to the strictly
increasing sequence of the positions of every newline byte of `B`, and
`lines` to the number of those bytes, before any new write; if the file
is absent (`ENOENT`), `open()` still succeeds with `size = 0`,
`lines = 0` and empty offsets. -/
theorem open_recovery :
    (∀ (pn : String) (B : List Nat) (env : OpenEnv) (f : Nat),
      env.mkdirErr = none → env.read = .ok → env.openRes = .ok f →
      openLogger (initLogger pn B) env
        = ({ initLogger pn B with
             size := B.length
             newLineOffsets := nlScan B
             lines := (nlScan B).length
             hasOpened := true
             fd := some f }, none) ∧
      (nlScan B).Pairwise (· < ·) ∧
      (∀ o, o ∈ nlScan B ↔ B.get? o = some newLineByte)) ∧
    (∀ (pn : String) (B : List Nat) (env : OpenEnv) (f : Nat),
      env.mkdirErr = none → env.read = .err .ENOENT → env.openRes = .ok f →
      openLogger (initLogger pn B) env
        = ({ initLogger pn B with hasOpened := true, fd := some f }, none) ∧
      (initLogger pn B).size = 0 ∧ (initLogger pn B).lines = 0 ∧
      (initLogger pn B).newLineOffsets = []) := by
  constructor
  · intro pn B env f hm hr ho
    refine ⟨?_, ?_, ?_⟩
    · exact openLogger_success (initLogger pn B) env f rfl hm hr ho
    · rw [nlScan_eq_nlPos]
      exact nlPos_pairwise B
    · intro o
      rw [nlScan_eq_nlPos]
      exact mem_nlPos_iff B o
  · intro pn B env f hm hr ho
    exact ⟨openLogger_enoent (initLogger pn B) env f rfl hm hr ho, rfl, rfl, rfl⟩

/-- Witness for C4: recovery over the file `"A\nB\n"`, and an absent
file. -/
theorem open_recovery_witness :
    (openLogger (initLogger "p" [65, 10, 66, 10])
        { mkdirErr := none, read := .ok, openRes := .ok 3 }
      = ({ initLogger "p" [65, 10, 66, 10] with
           size := [65, 10, 66, 10].length
           newLineOffsets := nlScan [65, 10, 66, 10]
           lines := (nlScan [65, 10, 66, 10]).length
           hasOpened := true
           fd := some 3 }, none) ∧
      (nlScan [65, 10, 66, 10]).Pairwise (· < ·) ∧
      (∀ o, o ∈ nlScan [65, 10, 66, 10]
        ↔ [65, 10, 66, 10].get? o = some newLineByte)) ∧
    (openLogger (initLogger "p" [])
        { mkdirErr := none, read := .err .ENOENT, openRes := .ok 3 }
      = ({ initLogger "p" [] with hasOpened := true, fd := some 3 }, none) ∧
      (initLogger "p" []).size = 0 ∧ (initLogger "p" []).lines = 0 ∧
      (initLogger "p" []).newLineOffsets = []) :=
  ⟨open_recovery.1 "p" [65, 10, 66, 10]
      { mkdirErr := none, read := .ok, openRes := .ok 3 } 3 rfl rfl rfl,
   open_recovery.2 "p" []
      { mkdirErr := none, read := .err .ENOENT, openRes := .ok 3 } 3 rfl rfl rfl⟩

/-- **C5.** A line whose first serialization exceeds 32768 units is
stored re-encoded: `fields = {isTruncated: true}`, the level demoted to
`warn` exactly when it was `info` (other levels unchanged), and a
`truncated` field equal to the first 32765 units of the original
serialization followed by `"..."`, of length exactly 32768 and ending in
`"..."`.  A line at or under the cap is stored as first serialized, with
no `truncated` field. -/
theorem write_sizeCap_truncation :
    (∀ {α : Type} (ser : LogLineRec α → Except Unit (List Nat))
        (name level msg : String) (info : Option α) (time : Nat)
        (str0 : List Nat),
      ser (initialRec name level msg info time) = .ok str0 →
      MAX_LOG_LINE_SIZE < str0.length →
      (∀ str1, ser (truncRec name level msg time str0) = .ok str1 →
        encodeLine ser name level msg info time
          = .ok (truncRec name level msg time str0, str1)) ∧
      (truncRec name level msg time str0 : LogLineRec α).fields
          = .isTruncatedTrue ∧
      (truncRec name level msg time str0 : LogLineRec α).level
          = (if level = "info" then "warn" else level) ∧
      (truncRec name level msg time str0 : LogLineRec α).truncated
          = some (str0.take (MAX_LOG_LINE_SIZE - 3) ++ [46, 46, 46]) ∧
      (str0.take (MAX_LOG_LINE_SIZE - 3) ++ [46, 46, 46]).length
          = MAX_LOG_LINE_SIZE ∧
      [46, 46, 46] <:+ (str0.take (MAX_LOG_LINE_SIZE - 3) ++ [46, 46, 46])) ∧
    (∀ {α : Type} (ser : LogLineRec α → Except Unit (List Nat))
        (name level msg : String) (info : Option α) (time : Nat)
        (str0 : List Nat),
      ser (initialRec name level msg info time) = .ok str0 →
      ¬ MAX_LOG_LINE_SIZE < str0.length →
      encodeLine ser name level msg info time
          = .ok (initialRec name level msg info time, str0) ∧
      (initialRec name level msg info time : LogLineRec α).truncated = none) := by
  constructor
  · intro α ser name level msg info time str0 h0 hlen
    refine ⟨?_, rfl, rfl, rfl, ?_, List.suffix_append _ _⟩
    · intro str1 h1
      unfold encodeLine
      rw [h0]
      simp only [if_pos hlen, h1]
    · rw [List.length_append, List.length_take]
      simp only [MAX_LOG_LINE_SIZE] at hlen ⊢
      simp only [List.length_cons, List.length_nil]
      omega
  · intro α ser name level msg info time str0 h0 hlen
    refine ⟨?_, rfl⟩
    unfold encodeLine
    rw [h0]
    simp only [if_neg hlen]

/-- Witness for C5: an oversized serialization (40000 units) and a short
one (1 unit). -/
theorem write_sizeCap_truncation_witness :
    MAX_LOG_LINE_SIZE < (List.replicate 40000 (65 : Nat)).length ∧
    ((∀ str1,
        constSer (truncRec "p" "info" "m" 0 (List.replicate 40000 65)) = .ok str1 →
        encodeLine constSer "p" "info" "m" none 0
          = .ok (truncRec "p" "info" "m" 0 (List.replicate 40000 65), str1)) ∧
      (truncRec "p" "info" "m" 0
          (List.replicate 40000 65) : LogLineRec Unit).fields
        = .isTruncatedTrue ∧
      (truncRec "p" "info" "m" 0
          (List.replicate 40000 65) : LogLineRec Unit).level
        = (if "info" = "info" then "warn" else "info") ∧
      (truncRec "p" "info" "m" 0
          (List.replicate 40000 65) : LogLineRec Unit).truncated
        = some ((List.replicate 40000 65).take (MAX_LOG_LINE_SIZE - 3)
            ++ [46, 46, 46]) ∧
      ((List.replicate 40000 (65 : Nat)).take (MAX_LOG_LINE_SIZE - 3)
          ++ [46, 46, 46]).length = MAX_LOG_LINE_SIZE ∧
      [46, 46, 46] <:+ ((List.replicate 40000 (65 : Nat)).take
          (MAX_LOG_LINE_SIZE - 3) ++ [46, 46, 46])) ∧
    (encodeLine shortSer "p" "info" "m" none 0
        = .ok (initialRec "p" "info" "m" none 0, [65]) ∧
      (initialRec "p" "info" "m" (none : Option Unit) 0).truncated = none) := by
  have hlen : MAX_LOG_LINE_SIZE < (List.replicate 40000 (65 : Nat)).length := by
    rw [List.length_replicate]
    norm_num [MAX_LOG_LINE_SIZE]
  refine ⟨hlen, ?_, ?_⟩
  · exact write_sizeCap_truncation.1 constSer "p" "info" "m" none 0
      (List.replicate 40000 65) rfl hlen
  · exact write_sizeCap_truncation.2 shortSer "p" "info" "m" none 0 [65] rfl
      (by norm_num [MAX_LOG_LINE_SIZE])

/-- **C7.** The core write path never throws and never rejects: a
serialization exception leaves the state untouched (the line is dropped,
not queued) and reports the wrapped exception to `onError`; a flush with
a null fd drops the snapshotted lines (they are not retried), appends
nothing to the file, and reports the fd-null error to `onError`; a failed
`write(fd)` likewise drops the snapshot, leaves the file unchanged, and
reports the wrapped write error to `onError`.  In each case the error is
a returned value handed to the callback, never a raised exception. -/
theorem write_never_throws :
    (∀ {α : Type} (ser : LogLineRec α → Except Unit (List Nat))
        (s : LoggerState) (level msg : String) (info : Option α) (time : Nat)
        (wr : WriteResult) (tenv : TruncEnv) (e : Unit),
      encodeLine ser s.productName level msg info time = .error e →
      writeStep ser s level msg info time wr tenv
        = (s, [.unexpectedWriteException])) ∧
    (∀ (s : LoggerState) (wr : WriteResult) (tenv : TruncEnv),
      s.pendingWrites ≠ [] → s.fd = none →
      flushTop s wr tenv = ({ s with pendingWrites := [] }, [.fdNull])) ∧
    (∀ (s : LoggerState) (tenv : TruncEnv) (c : ErrCode) (f : Nat),
      s.pendingWrites ≠ [] → s.fd = some f →
      flushTop s (.err c) tenv
        = ({ s with pendingWrites := [], writeCalled := s.writeCalled + 1 },
           [.writeFail c])) := by
  refine ⟨?_, ?_, ?_⟩
  · intro α ser s level msg info time wr tenv e henc
    unfold writeStep
    rw [henc]
  · intro s wr tenv hne hfd
    have hie : s.pendingWrites.isEmpty = false := by
      cases hpw : s.pendingWrites with
      | nil => exact absurd hpw hne
      | cons a t => rfl
    simp [flushTop, hie, flushRound_fdNone_eq s wr tenv hfd]
  · intro s tenv c f hne hfd
    have hie : s.pendingWrites.isEmpty = false := by
      cases hpw : s.pendingWrites with
      | nil => exact absurd hpw hne
      | cons a t => rfl
    simp [flushTop, hie, flushRound_err_eq s c tenv f hfd]

/-- Witness for C7: a throwing serializer, a poisoned fd, and a failed
write, each at a concrete logger state. -/
theorem write_never_throws_witness :
    (writeStep failSer onePendingState "info" "m" none 0 (.ok 0) allOkTruncEnv
      = (onePendingState, [.unexpectedWriteException])) ∧
    (flushTop poisonedFdState (.ok 0) allOkTruncEnv
      = ({ poisonedFdState with pendingWrites := [] }, [.fdNull])) ∧
    (flushTop onePendingState (.err .EOTHER) allOkTruncEnv
      = ({ onePendingState with
            pendingWrites := []
            writeCalled := onePendingState.writeCalled + 1 },
         [.writeFail .EOTHER])) :=
  ⟨write_never_throws.1 failSer onePendingState "info" "m" none 0 (.ok 0)
      allOkTruncEnv () rfl,
   write_never_throws.2.1 poisonedFdState (.ok 0) allOkTruncEnv (by decide) rfl,
   write_never_throws.2.2 onePendingState allOkTruncEnv .EOTHER 3 (by decide) rfl⟩

theorem openFdStep_err_eq (s : LoggerState) (env : OpenEnv) (c : ErrCode)
    (h : env.openRes = .err c) :
    openFdStep s env = (s, some (.openFail
      { message := "Could not open log file", code := c
        shouldBail := if c = ErrCode.EACCES then true else false })) := by
  unfold openFdStep
  rw [h]
  by_cases hc : c = ErrCode.EACCES <;> simp [hc]

theorem openFdStep_shouldBail (s : LoggerState) (env : OpenEnv)
    (e : OpenFailError) (h : (openFdStep s env).2 = some (.openFail e)) :
    (e.shouldBail = true ↔ env.openRes = .err ErrCode.EACCES) := by
  cases ho : env.openRes with
  | ok f =>
    unfold openFdStep at h
    rw [ho] at h
    simp at h
  | err c =>
    rw [openFdStep_err_eq s env c ho] at h
    simp only [Option.some.injEq, LogError.openFail.injEq] at h
    subst h
    by_cases hc : c = ErrCode.EACCES
    · simp [hc, ho]
    · simp only [if_neg hc]
      constructor
      · intro hb
        exact absurd hb (by simp)
      · intro hb
        simp only [ho, FdResult.err.injEq] at hb
        exact absurd hb hc

/-- **C8.** A directory-creation failure and a pre-existing-file read
failure each yield an `OpenFailError` wrapping the cause with
`shouldBail = false`; and across all failing `open()` outcomes that
return an `OpenFailError`, `shouldBail = true` holds exactly when the
descriptor-open step was reached (mkdir succeeded, the read succeeded or
was `ENOENT`) and failed with `EACCES`. -/
theorem open_shouldBail_classification :
    (∀ (s : LoggerState) (env : OpenEnv) (c : ErrCode),
      s.fd = none → env.mkdirErr = some c →
      openLogger s env = (s, some (.openFail
        { message := "Could not mkdir for log file", code := c
          shouldBail := false }))) ∧
    (∀ (s : LoggerState) (env : OpenEnv) (c : ErrCode),
      s.fd = none → env.mkdirErr = none → env.read = .err c →
      c ≠ ErrCode.ENOENT →
      openLogger s env = (s, some (.openFail
        { message := "Could not read old file", code := c
          shouldBail := false }))) ∧
    (∀ (s : LoggerState) (env : OpenEnv) (e : OpenFailError),
      (openLogger s env).2 = some (.openFail e) →
      (e.shouldBail = true ↔
        env.mkdirErr = none ∧ (∀ c, env.read = .err c → c = ErrCode.ENOENT)
          ∧ env.openRes = .err ErrCode.EACCES)) := by
  refine ⟨?_, ?_, ?_⟩
  · intro s env c hfd hm
    unfold openLogger
    rw [hfd, hm]
    rfl
  · intro s env c hfd hm hr hc
    unfold openLogger
    rw [hfd, hm, hr]
    simp only [if_pos hc]
    rfl
  · intro s env e h
    unfold openLogger at h
    by_cases hfd : s.fd.isSome
    · rw [if_pos hfd] at h
      simp at h
    · rw [if_neg hfd] at h
      cases hm : env.mkdirErr with
      | some c =>
        rw [hm] at h
        simp only [Option.some.injEq, LogError.openFail.injEq] at h
        rw [← h]
        constructor
        · intro hb
          exact absurd hb (by simp)
        · rintro ⟨hnone, -, -⟩
          exact absurd hnone (by simp)
      | none =>
        rw [hm] at h
        cases hr : env.read with
        | err c =>
          rw [hr] at h
          by_cases hc : c = ErrCode.ENOENT
          · have hc' : ¬ (c ≠ ErrCode.ENOENT) := by simpa using hc
            simp only [if_neg hc'] at h
            rw [openFdStep_shouldBail s env e h]
            constructor
            · intro ho
              refine ⟨rfl, ?_, ho⟩
              intro c' hcc'
              simp only [ReadOutcome.err.injEq] at hcc'
              rw [← hcc']
              exact hc
            · rintro ⟨-, -, ho⟩
              exact ho
          · have hc' : c ≠ ErrCode.ENOENT := hc
            simp only [if_pos hc'] at h
            simp only [Option.some.injEq, LogError.openFail.injEq] at h
            rw [← h]
            constructor
            · intro hb
              exact absurd hb (by simp)
            · rintro ⟨-, hread, -⟩
              exact absurd (hread c rfl) hc
        | ok =>
          rw [hr] at h
          have hiff := openFdStep_shouldBail
            { s with
              size := s.file.length
              newLineOffsets := nlScan s.file
              lines := (nlScan s.file).length } env e h
          rw [hiff]
          constructor
          · intro ho
            refine ⟨rfl, ?_, ho⟩
            intro c' hcc'
            exact absurd hcc' (by simp)
          · rintro ⟨-, -, ho⟩
            exact ho

/-- Witness for C8: an `EACCES` mkdir failure (no bail), a non-`ENOENT`
read failure (no bail), and an `EACCES` descriptor-open failure (bail). -/
theorem open_shouldBail_classification_witness :
    (openLogger (initLogger "p" [])
        { mkdirErr := some .EACCES, read := .ok, openRes := .ok 3 }
      = (initLogger "p" [], some (.openFail
        { message := "Could not mkdir for log file", code := .EACCES
          shouldBail := false }))) ∧
    (openLogger (initLogger "p" [])
        { mkdirErr := none, read := .err .EOTHER, openRes := .ok 3 }
      = (initLogger "p" [], some (.openFail
        { message := "Could not read old file", code := .EOTHER
          shouldBail := false }))) ∧
    (({ message := "Could not open log file", code := ErrCode.EACCES
        shouldBail := true } : OpenFailError).shouldBail = true ↔
      (({ mkdirErr := none, read := .ok, openRes := .err .EACCES }
          : OpenEnv).mkdirErr = none ∧
        (∀ c, ({ mkdirErr := none, read := .ok, openRes := .err .EACCES }
            : OpenEnv).read = .err c → c = ErrCode.ENOENT) ∧
        ({ mkdirErr := none, read := .ok, openRes := .err .EACCES }
          : OpenEnv).openRes = .err ErrCode.EACCES)) :=
  ⟨open_shouldBail_classification.1 (initLogger "p" []) _ .EACCES rfl rfl,
   open_shouldBail_classification.2.1 (initLogger "p" []) _ .EOTHER rfl rfl rfl
     (by decide),
   open_shouldBail_classification.2.2 (initLogger "p" []) _ _ (by decide)⟩

/-- **C10.** Invoking the write path through a level method before a
successful `open()` throws synchronously (`'Must call open() first.'`),
producing no state: the line is never queued.  A logger starts with
`hasOpened = false`, and every failing `open()` leaves `hasOpened`
unchanged, so no line written before the first successful `open()` can
reach the pending queue or the file through the level methods. -/
theorem log_before_open :
    (∀ {α : Type} (ser : LogLineRec α → Except Unit (List Nat))
        (s : LoggerState) (level msg : String) (info : Option α) (time : Nat)
        (wr : WriteResult) (tenv : TruncEnv),
      s.hasOpened = false →
      mainLog ser s level msg info time wr tenv
        = .error "Must call open() first.") ∧
    (∀ (pn : String) (file : List Nat),
      (initLogger pn file).hasOpened = false) ∧
    (∀ (s : LoggerState) (env : OpenEnv),
      (openLogger s env).2 ≠ none →
      (openLogger s env).1.hasOpened = s.hasOpened) := by
  refine ⟨?_, fun pn file => rfl, ?_⟩
  · intro α ser s level msg info time wr tenv h
    unfold mainLog
    rw [h]
    rfl
  · intro s env herr
    unfold openLogger at herr ⊢
    by_cases hfd : s.fd.isSome
    · rw [if_pos hfd]
    · rw [if_neg hfd] at herr ⊢
      cases hm : env.mkdirErr with
      | some c => rfl
      | none =>
        rw [hm] at herr
        cases hr : env.read with
        | err c =>
          rw [hr] at herr
          by_cases hc : c = ErrCode.ENOENT
          · have hc' : ¬ (c ≠ ErrCode.ENOENT) := by simpa using hc
            simp only [if_neg hc'] at herr ⊢
            unfold openFdStep at herr ⊢
            cases ho : env.openRes with
            | ok f =>
              rw [ho] at herr
              simp at herr
            | err c' => rfl
          · have hc' : c ≠ ErrCode.ENOENT := hc
            simp only [if_pos hc']
        | ok =>
          rw [hr] at herr
          unfold openFdStep at herr ⊢
          cases ho : env.openRes with
          | ok f =>
            rw [ho] at herr
            simp at herr
          | err c' => rfl

/-- Witness for C10: a freshly constructed (never opened) logger and a
failing `open()`. -/
theorem log_before_open_witness :
    (mainLog failSer (initLogger "p" []) "info" "m" none 0 (.ok 0) allOkTruncEnv
      = .error "Must call open() first.") ∧
    ((initLogger "p" []).hasOpened = false) ∧
    ((openLogger (initLogger "p" [])
        { mkdirErr := some .EOTHER, read := .ok, openRes := .ok 3 }).1.hasOpened
      = (initLogger "p" []).hasOpened) :=
  ⟨log_before_open.1 failSer (initLogger "p" []) "info" "m" none 0 (.ok 0)
      allOkTruncEnv rfl,
   log_before_open.2.1 "p" [],
   log_before_open.2.2 (initLogger "p" [])
      { mkdirErr := some .EOTHER, read := .ok, openRes := .ok 3 } (by decide)⟩

/-- Witness for C6 (amended): a full-write flush of two newline-free
lines against an empty well-formed logger. -/
theorem flush_preserves_offsets_invariant_witness :
    StateWF twoPendingState ∧
    twoPendingState.pendingWrites ≠ [] ∧
    ((flushRound twoPendingState
        (.ok (joinNl twoPendingState.pendingWrites).length)
        allOkTruncEnv).state.newLineOffsets.length
      = (flushRound twoPendingState
          (.ok (joinNl twoPendingState.pendingWrites).length)
          allOkTruncEnv).state.lines ∧
    (flushRound twoPendingState
        (.ok (joinNl twoPendingState.pendingWrites).length)
        allOkTruncEnv).state.newLineOffsets.Pairwise (· < ·) ∧
    ∀ o ∈ (flushRound twoPendingState
        (.ok (joinNl twoPendingState.pendingWrites).length)
        allOkTruncEnv).state.newLineOffsets,
      (flushRound twoPendingState
          (.ok (joinNl twoPendingState.pendingWrites).length)
          allOkTruncEnv).state.file.get? o = some newLineByte) :=
  ⟨⟨rfl, rfl, rfl⟩, by decide,
    flush_preserves_offsets_invariant twoPendingState 3 allOkTruncEnv
      ⟨rfl, rfl, rfl⟩ (by decide) (by decide) rfl (by decide)⟩
